import Mathlib

set_option maxRecDepth 8000

/-!
Shallow embedding of `custom_components/aiseg2_bridge/sensor_client.py`
(class `AISEG2SensorClient`), covering `_extract_sensor_data`,
`_async_exit_setting_mode` and `async_get_sensor_data`.

Strings are modelled as Lean `String` / `List Char`.  Python exceptions that
can escape `_extract_sensor_data` (AttributeError / TypeError / KeyError from
dynamic typing) are modelled with `Except PyErr`.  `json.loads` is modelled by
an executable JSON parser (`jsonParse`).  The two `re.search` calls are
modelled by explicit leftmost-scan functions whose backtracking behaviour
coincides with the Python patterns on the relevant grammar (see the comments
at `matchTempAt` / `matchHumAt`).  Python float values produced by
`float(...)` on the matched text are modelled exactly as rationals.
-/

/-- Python exceptions that the extraction code can raise (other than the
caught `json.JSONDecodeError`). -/
inductive PyErr where
  | attributeError
  | typeError
  | keyError
deriving DecidableEq

/-- JSON values as produced by `json.loads`.  A number is `m * 10 ^ e`
(exactly representing any decimal literal); `isInt` records whether Python
would produce an `int` (no fraction part and no exponent in the literal)
rather than a `float`. -/
inductive Json where
  | null
  | bool (b : Bool)
  | num (m : Int) (e : Int) (isInt : Bool)
  | str (s : String)
  | arr (elems : List Json)
  | obj (fields : List (String × Json))

/- The literal characters for the two braces (written via their code points). -/
def lbrace : Char := Char.ofNat 123

def rbrace : Char := Char.ofNat 125

/-- Python truthiness of a JSON-derived value (`if device.get('state') and ...`). -/
def truthy : Json → Bool
  | .null => false
  | .bool b => b
  | .num m _ _ => m != 0
  | .str s => !s.isEmpty
  | .arr xs => !xs.isEmpty
  | .obj kvs => !kvs.isEmpty

/-- `dict` lookup.  The parser keeps keys unique (last value wins), so the
first hit is the dict entry. -/
def dictGet (kvs : List (String × Json)) (k : String) : Option Json :=
  match kvs.find? (fun kv => kv.1 == k) with
  | some kv => some kv.2
  | none => none

/-- First index at which `pat` occurs as a contiguous sublist of `s`
(Python's leftmost-occurrence search for a literal pattern). -/
def findSub (pat : List Char) : List Char → Option Nat
  | [] => if pat.isPrefixOf ([] : List Char) then some 0 else none
  | c :: t =>
    if pat.isPrefixOf (c :: t) then some 0
    else (findSub pat t).map (· + 1)

/-- Python `needle in haystack` for strings (substring containment). -/
def containsSub (pat s : List Char) : Bool :=
  (findSub pat s).isSome

/-- The literal `init({` that opens the payload in
`re.search(r'init\((\{.*?\})\);</script>', html, re.DOTALL)`. -/
def initOpen : List Char :=
  'i' :: 'n' :: 'i' :: 't' :: '(' :: lbrace :: []

/-- The literal `});</script>` that closes the payload. -/
def initClose : List Char :=
  rbrace :: ')' :: ';' :: '<' :: '/' :: 's' :: 'c' :: 'r' :: 'i' :: 'p' :: 't' :: '>' :: []

/-- `match.group(1)` of `re.search(r'init\((\{.*?\})\);</script>', html, re.DOTALL)`.
The whole pattern matches at a position iff `init({` starts there and
`});</script>` occurs somewhere after it, and the lazy `.*?` picks the
closest such closer; hence the leftmost match is obtained from the first
occurrence of `init({` and the first occurrence of `});</script>` after it. -/
def findInit (s : List Char) : Option (List Char) :=
  match findSub initOpen s with
  | none => none
  | some i =>
    let rest := s.drop (i + 6)
    match findSub initClose rest with
    | none => none
    | some k => some (lbrace :: rest.take k ++ [rbrace])

/-- ASCII decimal digit (Python `\d`; the source labels only ever contain
ASCII digits, so the other Unicode decimal digits are not modelled). -/
def isDigit (c : Char) : Bool :=
  '0' ≤ c && c ≤ '9'

/-- Maximal run of digits at the front of the list, and the remainder. -/
def digitRun : List Char → List Char × List Char
  | [] => ([], [])
  | c :: t =>
    if isDigit c then
      match digitRun t with
      | (d, r) => (c :: d, r)
    else ([], c :: t)

/-- One anchored attempt of `(-?\d+(?:\.\d+)?)℃` at the head of `l`,
returning `group(1)`.  The greedy `\d+` runs cannot usefully backtrack
(shrinking a digit run leaves a digit next, which can never match `.`
or `℃`), so the match is: optional sign, maximal digit run, then either
`℃` directly, or `.`, a maximal nonempty digit run and `℃`. -/
def matchTempTail (sgn s : List Char) : Option (List Char) :=
  match digitRun s with
  | (d, r) =>
    if d.isEmpty then none
    else
      match r with
      | [] => none
      | c :: f =>
        if c = '.' then
          match digitRun f with
          | (fd, fr) =>
            if fd.isEmpty then none
            else
              match fr with
              | [] => none
              | c2 :: _ => if c2 = '℃' then some (sgn ++ d ++ '.' :: fd) else none
        else if c = '℃' then some (sgn ++ d)
        else none

/-- The anchored attempt, dispatching on the optional `-?` first. -/
def matchTempAt (l : List Char) : Option (List Char) :=
  match l with
  | [] => matchTempTail [] []
  | c :: t => if c = '-' then matchTempTail ['-'] t else matchTempTail [] (c :: t)

/-- One anchored attempt of `(\d+)％` (full-width percent sign U+FF05) at the
head of `l`: a maximal nonempty digit run immediately followed by `％`. -/
def matchHumAt (l : List Char) : Option (List Char) :=
  match digitRun l with
  | (d, r) =>
    if d.isEmpty then none
    else
      match r with
      | [] => none
      | c :: _ => if c = '％' then some d else none

/-- `re.search` position scan: try the anchored matcher at each position from
the left and return the first success. -/
def searchFirst (m : List Char → Option (List Char)) : List Char → Option (List Char)
  | [] => m []
  | c :: t =>
    match m (c :: t) with
    | some g => some g
    | none => searchFirst m t

/-- Value of the digit list read in base 10 (`int(...)` on a digit string);
48 is the code point of the digit zero. -/
def digitsToNatAux (a : Nat) : List Char → Nat
  | [] => a
  | c :: t => digitsToNatAux (10 * a + (c.toNat - 48)) t

def digitsToNat (ds : List Char) : Nat :=
  digitsToNatAux 0 ds

/-- `float(...)` on a string of shape `-? digits (. digits)?`, exact as a
rational (the Python binary float compares equal to the decimal literal in
every claim, so the rational value is the faithful abstraction). -/
def parseDec (g : List Char) : Rat :=
  let p : Rat × List Char :=
    match g with
    | '-' :: t => (-1, t)
    | _ => (1, g)
  match digitRun p.2 with
  | (d, r) =>
    match r with
    | '.' :: f => p.1 * ((digitsToNat d : Rat) + (digitsToNat f : Rat) / ((10 : Rat) ^ f.length))
    | _ => p.1 * (digitsToNat d : Rat)

/-- `temp_match = re.search(r'(-?\d+(?:\.\d+)?)℃', label)` followed by
`float(temp_match.group(1)) if temp_match else None`. -/
def labelTemp (s : String) : Option Rat :=
  (searchFirst matchTempAt s.data).map parseDec

/-- `hum_match = re.search(r'(\d+)％', label)` followed by
`int(hum_match.group(1)) if hum_match else None`. -/
def labelHum (s : String) : Option Int :=
  (searchFirst matchHumAt s.data).map (fun ds => (digitsToNat ds : Int))

/-- JSON whitespace accepted by Python's scanner. -/
def isWs (c : Char) : Bool :=
  c = ' ' || c = '\t' || c = '\n' || c = '\r'

/-- Skip JSON whitespace. -/
def skipWs (s : List Char) : List Char :=
  s.dropWhile isWs

/-- Hex digit value for `\uXXXX` escapes, by code point: digits are
48-57, the lower-case letters a-f are 97-102, the capitals A-F are 65-70. -/
def hexVal (c : Char) : Option Nat :=
  let n := c.toNat
  if 48 ≤ n ∧ n ≤ 57 then some (n - 48)
  else if 97 ≤ n ∧ n ≤ 102 then some (n - 87)
  else if 65 ≤ n ∧ n ≤ 70 then some (n - 55)
  else none

/-- JSON string body after the opening quote (Python `py_scanstring`,
`strict=True`): literal characters except `"`, `\` and controls below
0x20; the short escapes; `\uXXXX` with surrogate pairs combined.  (A lone
surrogate is rejected here where Python would keep it in the `str`;
no claim depends on that corner.) -/
def parseStr : List Char → Option (List Char × List Char)
  | [] => none
  | '"' :: t => some ([], t)
  | '\\' :: e :: t =>
    match e with
    | '"' => (parseStr t).map (fun p => ('"' :: p.1, p.2))
    | '\\' => (parseStr t).map (fun p => ('\\' :: p.1, p.2))
    | '/' => (parseStr t).map (fun p => ('/' :: p.1, p.2))
    | 'b' => (parseStr t).map (fun p => (Char.ofNat 8 :: p.1, p.2))
    | 'f' => (parseStr t).map (fun p => (Char.ofNat 12 :: p.1, p.2))
    | 'n' => (parseStr t).map (fun p => ('\n' :: p.1, p.2))
    | 'r' => (parseStr t).map (fun p => ('\r' :: p.1, p.2))
    | 't' => (parseStr t).map (fun p => ('\t' :: p.1, p.2))
    | 'u' =>
      (match t with
       | a :: b :: c :: d :: t2 =>
         match hexVal a, hexVal b, hexVal c, hexVal d with
         | some ha, some hb, some hc, some hd =>
           let n := ((ha * 16 + hb) * 16 + hc) * 16 + hd
           if 0xD800 ≤ n && n < 0xDC00 then
             match t2 with
             | '\\' :: 'u' :: a2 :: b2 :: c2 :: d2 :: t3 =>
               (match hexVal a2, hexVal b2, hexVal c2, hexVal d2 with
                | some ha2, some hb2, some hc2, some hd2 =>
                  let n2 := ((ha2 * 16 + hb2) * 16 + hc2) * 16 + hd2
                  if 0xDC00 ≤ n2 && n2 < 0xE000 then
                    (parseStr t3).map (fun p =>
                      (Char.ofNat (0x10000 + (n - 0xD800) * 0x400 + (n2 - 0xDC00)) :: p.1, p.2))
                  else none
                | _, _, _, _ => none)
             | _ => none
           else if 0xDC00 ≤ n && n < 0xE000 then none
           else (parseStr t2).map (fun p => (Char.ofNat n :: p.1, p.2))
         | _, _, _, _ => none
       | _ => none)
    | _ => none
  | c :: t =>
    if c.toNat < 0x20 then none
    else (parseStr t).map (fun p => (c :: p.1, p.2))

/-- JSON number (Python `NUMBER_RE`): `-?(0|[1-9]\d*)(\.\d+)?([eE][+-]?\d+)?`.
A fraction or exponent is consumed only when complete, as with the regex;
leading-zero violations leave the extra digits for the caller to choke on. -/
def parseNum (s : List Char) : Option (Json × List Char) :=
  let p : Bool × List Char :=
    match s with
    | '-' :: t => (true, t)
    | _ => (false, s)
  match p.2 with
  | c :: t =>
    if c = '0' ∨ (isDigit c && c ≠ '0') then
      let ip : List Char × List Char :=
        if c = '0' then ([c], t)
        else match digitRun t with
             | (d, r) => (c :: d, r)
      let fp : List Char × List Char :=
        match ip.2 with
        | '.' :: r1 =>
          (match digitRun r1 with
           | ([], _) => ([], ip.2)
           | (fd, r2) => (fd, r2))
        | _ => ([], ip.2)
      let ep : Option Int × List Char :=
        match fp.2 with
        | e :: r1 =>
          if e = 'e' ∨ e = 'E' then
            match r1 with
            | '-' :: r2 =>
              (match digitRun r2 with
               | ([], _) => (none, fp.2)
               | (ed, r3) => (some (-(digitsToNat ed : Int)), r3))
            | '+' :: r2 =>
              (match digitRun r2 with
               | ([], _) => (none, fp.2)
               | (ed, r3) => (some (digitsToNat ed : Int), r3))
            | _ =>
              (match digitRun r1 with
               | ([], _) => (none, fp.2)
               | (ed, r3) => (some (digitsToNat ed : Int), r3))
          else (none, fp.2)
        | [] => (none, fp.2)
      let mag : Nat := digitsToNat (ip.1 ++ fp.1)
      let m : Int := if p.1 then -(mag : Int) else (mag : Int)
      let isInt : Bool := fp.1.isEmpty && ep.1.isNone
      let e : Int := ep.1.getD 0 - (fp.1.length : Int)
      some (.num m e isInt, ep.2)
    else none
  | [] => none

/-- `dict` insertion while building an object: a duplicate key keeps its
first position but takes the new value, a fresh key is appended. -/
def insertKey : List (String × Json) → String → Json → List (String × Json)
  | [], k, v => [(k, v)]
  | (k0, v0) :: t, k, v =>
    if k0 = k then (k0, v) :: t else (k0, v0) :: insertKey t k v

mutual

/-- One JSON value at the head of the input (whitespace already skipped),
returning the value and the rest of the input.  `fuel` only bounds the
recursion; `jsonParse` supplies enough for any input. -/
def parseVal : Nat → List Char → Option (Json × List Char)
  | 0, _ => none
  | fuel + 1, s =>
    match s with
    | [] => none
    | c :: t =>
      if c = lbrace then
        match skipWs t with
        | d :: r =>
          if d = rbrace then some (.obj [], r)
          else parseObjItems fuel [] (d :: r)
        | [] => none
      else if c = '[' then
        match skipWs t with
        | ']' :: r => some (.arr [], r)
        | r => parseArrItems fuel [] r
      else if c = '"' then
        (parseStr t).map (fun p => (Json.str (String.mk p.1), p.2))
      else if c = 't' then
        match t with
        | 'r' :: 'u' :: 'e' :: r => some (.bool true, r)
        | _ => none
      else if c = 'f' then
        match t with
        | 'a' :: 'l' :: 's' :: 'e' :: r => some (.bool false, r)
        | _ => none
      else if c = 'n' then
        match t with
        | 'u' :: 'l' :: 'l' :: r => some (.null, r)
        | _ => none
      else parseNum (c :: t)

/-- Comma-separated array items up to `]`. -/
def parseArrItems : Nat → List Json → List Char → Option (Json × List Char)
  | 0, _, _ => none
  | fuel + 1, acc, s =>
    match parseVal fuel (skipWs s) with
    | none => none
    | some (v, r) =>
      match skipWs r with
      | ',' :: r2 => parseArrItems fuel (acc ++ [v]) r2
      | ']' :: r2 => some (.arr (acc ++ [v]), r2)
      | _ => none

/-- Comma-separated `"key": value` members up to `}`.  Duplicate keys
overwrite the earlier value in place, as in a Python `dict`. -/
def parseObjItems : Nat → List (String × Json) → List Char → Option (Json × List Char)
  | 0, _, _ => none
  | fuel + 1, acc, s =>
    match s with
    | '"' :: t =>
      (match parseStr t with
       | none => none
       | some (k, r) =>
         match skipWs r with
         | ':' :: r2 =>
           (match parseVal fuel (skipWs r2) with
            | none => none
            | some (v, r3) =>
              let acc2 := insertKey acc (String.mk k) v
              match skipWs r3 with
              | ',' :: r4 =>
                (match skipWs r4 with
                 | d :: r5 => parseObjItems fuel acc2 (d :: r5)
                 | [] => none)
              | d :: r4 =>
                if d = rbrace then some (.obj acc2, r4) else none
              | [] => none)
         | _ => none)
    | _ => none

end

/-- `json.loads`: one JSON document, with only trailing whitespace allowed.
(Python's `NaN`/`Infinity` extensions are not modelled; no claim uses them.) -/
def jsonParse (g : List Char) : Option Json :=
  match parseVal (2 * g.length + 2) (skipWs g) with
  | some (v, rest) => if (skipWs rest).isEmpty then some v else none
  | none => none

/-- Decimal digits of a natural number (used by `pyStr`). -/
def natStr (n : Nat) : String :=
  String.mk (Nat.toDigits 10 n)

/-- Python `str` of an `int`. -/
def intStr : Int → String
  | .ofNat n => natStr n
  | .negSucc n => "-" ++ natStr (n + 1)

/-- Strip trailing `'0'` characters. -/
def stripTrailingZeros (ds : List Char) : List Char :=
  ((ds.reverse).dropWhile (· = '0')).reverse

/-- Left-pad with `'0'` to length `k`. -/
def padZeros (k : Nat) (ds : List Char) : List Char :=
  List.replicate (k - ds.length) '0' ++ ds

/-- Python `str` of a `float` holding exactly `m * 10 ^ e`: plain decimal
with at least one fraction digit and trailing zeros dropped.  (Python's
shortest-roundtrip repr and its switch to scientific notation for extreme
magnitudes are not modelled; no claim evaluates `str` on a float.) -/
def pyFloatStr (m e : Int) : String :=
  let sign : String := if m < 0 then "-" else ""
  let a : Nat := m.natAbs
  match e with
  | .ofNat k => sign ++ natStr (a * 10 ^ k) ++ ".0"
  | .negSucc j =>
    let k := j + 1
    let ip := a / 10 ^ k
    let fp := a % 10 ^ k
    let frac := stripTrailingZeros (padZeros k (Nat.toDigits 10 fp))
    sign ++ natStr ip ++ "." ++ String.mk (if frac.isEmpty then ['0'] else frac)

/-- Python `str(...)` as applied in `str(device.get('nodeId', ''))`.
(`str` of a list or dict would render its repr; that case is abstracted by
a placeholder, and no claim reaches it since `nodeId` is never a container
in any claim input.) -/
def pyStr : Json → String
  | .null => "None"
  | .bool true => "True"
  | .bool false => "False"
  | .str s => s
  | .num m _ true => intStr m
  | .num m e false => pyFloatStr m e
  | .arr _ => "<list>"
  | .obj _ => "<dict>"

/-- One sensor record, as assembled into the `sensor_data` dict of
`_extract_sensor_data`.  `name`, `location` and `status` keep the raw JSON
values (the Python dict stores whatever `device.get` returned);
`temperature` and `humidity` are the decoded optional numbers. -/
structure SensorRecord where
  device_id : String
  name : Json
  location : Json
  temperature : Option Rat
  humidity : Option Int
  status : Json
  raw_label : String

/-- The `sensor_data` dict built for a device that passed the label filter:
`kvs` are the device's fields, `skvs` the fields of `device['state']`, and
`ls` the label string. -/
def mkRecord (kvs skvs : List (String × Json)) (ls : String) : SensorRecord where
  device_id := pyStr ((dictGet kvs "nodeId").getD (Json.str ""))
  name := (dictGet kvs "deviceName").getD (Json.str "Unknown")
  location := (dictGet kvs "location").getD (Json.str "未設定")
  temperature := labelTemp ls
  humidity := labelHum ls
  status := (dictGet skvs "connection").getD (Json.str "unknown")
  raw_label := ls

/-- The per-device body of the `for device in data['regDevList']['list']`
loop.  `ok none` is `continue`; `ok (some r)` appends `r`; `error` models
the uncaught exception Python raises on a value of unexpected shape:
`.get` on a non-dict raises AttributeError, `in` on a number raises
TypeError, and a non-string truthy label containing the marker reaches
`re.search` and raises TypeError. -/
def procDevice (d : Json) : Except PyErr (Option SensorRecord) :=
  match d with
  | .obj kvs =>
    let state := (dictGet kvs "state").getD Json.null
    if truthy state then
      match state with
      | .obj skvs =>
        let label := (dictGet skvs "label").getD Json.null
        if truthy label then
          match label with
          | .str ls =>
            if ls.data.contains '℃' then .ok (some (mkRecord kvs skvs ls))
            else .ok none
          | .arr xs =>
            if xs.any (fun j => match j with | .str t => t == "℃" | _ => false) then
              .error .typeError
            else .ok none
          | .obj lkvs =>
            if lkvs.any (fun kv => kv.1 == "℃") then .error .typeError
            else .ok none
          | _ => .error .typeError
        else .ok none
      | _ => .error .attributeError
    else .ok none
  | _ => .error .attributeError

/-- The record the loop body emits for a device, when it emits one without
raising. -/
def recordOf (d : Json) : Option SensorRecord :=
  match procDevice d with
  | .ok o => o
  | .error _ => none

/-- The device loop of `_extract_sensor_data`: records in iteration order;
an exception from any iteration aborts the whole call. -/
def extractFromList : List Json → Except PyErr (List SensorRecord)
  | [] => .ok []
  | d :: ds =>
    match procDevice d with
    | .error e => .error e
    | .ok none => extractFromList ds
    | .ok (some r) =>
      match extractFromList ds with
      | .error e => .error e
      | .ok rs => .ok (r :: rs)

/-- Python `needle in container` for a string needle (`'regDevList' not in
data`, `'list' not in data['regDevList']`): substring test on a `str`,
element test on a `list`, key test on a `dict`, TypeError otherwise. -/
def pyInStr (needle : String) : Json → Except PyErr Bool
  | .str s => .ok (containsSub needle.data s.data)
  | .arr xs => .ok (xs.any (fun j => match j with | .str t => t == needle | _ => false))
  | .obj kvs => .ok (kvs.any (fun kv => kv.1 == needle))
  | _ => .error .typeError

/-- Python subscript `container[key]` for a string key. -/
def pySubscript (j : Json) (k : String) : Except PyErr Json :=
  match j with
  | .obj kvs =>
    (match dictGet kvs k with
     | some v => .ok v
     | none => .error .keyError)
  | _ => .error .typeError

/-- Python iteration `for device in v`: a `list` yields its elements, a
`str` its one-character strings, a `dict` its keys; other values raise
TypeError. -/
def pyIter : Json → Except PyErr (List Json)
  | .arr xs => .ok xs
  | .str s => .ok (s.data.map (fun c => Json.str (String.mk [c])))
  | .obj kvs => .ok (kvs.map (fun kv => Json.str kv.1))
  | _ => .error .typeError

/-- Steps 1-3 of `_extract_sensor_data` plus the loop-header iteration:
locate the `init(...)` payload, parse it, check `'regDevList' not in data
or 'list' not in data['regDevList']`, and iterate
`data['regDevList']['list']`.  `ok none` is an early `return []`;
`ok (some ds)` means the loop runs over `ds`. -/
def devListStep (html : String) : Except PyErr (Option (List Json)) :=
  match findInit html.data with
  | none => .ok none
  | some g =>
    match jsonParse g with
    | none => .ok none
    | some data =>
      match pyInStr "regDevList" data with
      | .error e => .error e
      | .ok false => .ok none
      | .ok true =>
        match pySubscript data "regDevList" with
        | .error e => .error e
        | .ok rdl =>
          match pyInStr "list" rdl with
          | .error e => .error e
          | .ok false => .ok none
          | .ok true =>
            match pySubscript rdl "list" with
            | .error e => .error e
            | .ok v =>
              match pyIter v with
              | .error e => .error e
              | .ok ds => .ok (some ds)

/-- `AISEG2SensorClient._extract_sensor_data(html)`: result list on normal
return, `error` when Python would raise. -/
def extract (html : String) : Except PyErr (List SensorRecord) :=
  match devListStep html with
  | .error e => .error e
  | .ok none => .ok []
  | .ok (some ds) => extractFromList ds

/-- The instance state of `AISEG2SensorClient` (`__init__` fields plus
whether `_client` has been created).  `_extract_sensor_data` reads none of
it (the module-level logger is the only other name it touches). -/
structure ClientState where
  host : String
  username : String
  password : String
  timeoutSecs : Rat
  clientOpen : Bool

/-- The method `self._extract_sensor_data(html)`: its body never reads
`self`, which the embedding makes explicit. -/
def extractSensorData (_self : ClientState) (html : String) : Except PyErr (List SensorRecord) :=
  extract html

/-- Outcome of one `await self._client.get(...)` (together with
`raise_for_status`): a response with its status code, or one of the
exception classes distinguished by the handlers in `sensor_client.py`. -/
inductive NetOutcome where
  | ok (status : Nat) (body : String)
  | timeout
  | connectError
  | otherExc
deriving DecidableEq

/-- `httpx.Response.is_success`: only 2xx passes `raise_for_status`. -/
def isSuccessStatus (s : Nat) : Bool :=
  200 ≤ s && s < 300

/-- What `_async_exit_setting_mode` logs; there is no raising constructor
because its `try` is closed by `except httpx.TimeoutException` and a
final `except Exception`, which between them catch every outcome of the
home-page GET. -/
inductive ExitLog where
  | success
  | timeoutIgnored
  | failureIgnored
deriving DecidableEq

/-- `AISEG2SensorClient._async_exit_setting_mode`: GET the home page,
`raise_for_status`, and swallow every failure with a warning log. -/
def asyncExitSettingMode (homeResp : NetOutcome) : ExitLog :=
  match homeResp with
  | .ok s _ => if isSuccessStatus s then .success else .failureIgnored
  | .timeout => .timeoutIgnored
  | .connectError => .failureIgnored
  | .otherExc => .failureIgnored

/-- Errors `async_get_sensor_data` re-raises to its caller. -/
inductive FetchErr where
  | timeout
  | connectError
  | httpStatus (code : Nat)
  | pyErr (e : PyErr)
  | other
deriving DecidableEq

/-- `AISEG2SensorClient.async_get_sensor_data`, parameterised by the
outcomes of its two HTTP GETs (settings page, then home page): fetch the
settings page, `raise_for_status`, extract, then sleep and call
`_async_exit_setting_mode`, whose result is discarded; every exception of
the main block is logged and re-raised. -/
def asyncGetSensorData (settingResp homeResp : NetOutcome) : Except FetchErr (List SensorRecord) :=
  match settingResp with
  | .timeout => .error .timeout
  | .connectError => .error .connectError
  | .otherExc => .error .other
  | .ok s body =>
    if isSuccessStatus s then
      match extract body with
      | .error e => .error (.pyErr e)
      | .ok devices =>
        match asyncExitSettingMode homeResp with
        | _ => .ok devices
    else .error (.httpStatus s)

/-- A device entry of a shape the loop body handles without raising: either
not a dict at all is excluded, and when its `state` is truthy it must be a
dict whose truthy `label` is a string.  (Anything else makes
`_extract_sensor_data` raise, see `procDevice`.) -/
def benignDev (d : Json) : Bool :=
  match d with
  | .obj kvs =>
    (match (dictGet kvs "state").getD Json.null with
     | .obj skvs =>
       !truthy (.obj skvs) ||
         (match (dictGet skvs "label").getD Json.null with
          | .str _ => true
          | lb => !truthy lb)
     | st => !truthy st)
  | _ => false

/-- The Python filter condition `device.get('state') and
device['state'].get('label') and '℃' in device['state']['label']`,
written out for entries it accepts (on `benignDev` entries it decides
exactly whether a record is emitted). -/
def passesFilter (d : Json) : Bool :=
  match d with
  | .obj kvs =>
    (match dictGet kvs "state" with
     | some (.obj skvs) =>
       !skvs.isEmpty &&
         (match dictGet skvs "label" with
          | some (.str ls) => !ls.isEmpty && ls.data.contains '℃'
          | _ => false)
     | _ => false)
  | _ => false

/-- Shape of the text matched by `(-?\d+(?:\.\d+)?)℃` before the marker:
optional minus sign, a nonempty digit run, optionally a dot and a nonempty
digit run. -/
def tempShapeTail (core : List Char) : Bool :=
  match digitRun core with
  | (d, r) =>
    !d.isEmpty &&
      (match r with
       | [] => true
       | c :: f =>
         if c = '.' then
           match digitRun f with
           | (fd, fr) => !fd.isEmpty && fr.isEmpty
         else false)

/-- The shape check, dispatching on the optional sign first. -/
def tempGroupShape (g : List Char) : Bool :=
  match g with
  | [] => tempShapeTail []
  | c :: t => if c = '-' then tempShapeTail t else tempShapeTail (c :: t)

/-- Like `tempShapeTail`, but allowing only a single fraction digit (after
an optional sign), as the claim asserts. -/
def claimShapeTail (core : List Char) : Bool :=
  match digitRun core with
  | (d, r) =>
    !d.isEmpty &&
      (match r with
       | [] => true
       | c :: f =>
         if c = '.' then
           match digitRun f with
           | (fd, fr) => fd.length == 1 && fr.isEmpty
         else false)

/-- The numeric-text shape asserted by the claim: optional sign, digits,
and either no fraction or exactly one fraction digit. -/
def claimTempShape (g : List Char) : Bool :=
  match g with
  | [] => claimShapeTail []
  | c :: t => if c = '-' then claimShapeTail t else claimShapeTail (c :: t)

/-- HTML whose one device entry has a `℃` label from which neither a
temperature nor a humidity can be decoded. -/
def htmlBothAbsent : String :=
  "init(\x7b\"regDevList\":\x7b\"list\":[\x7b\"nodeId\":\"1\",\"state\":\x7b\"label\":\"abc℃\"\x7d\x7d]\x7d\x7d);</script>"

/-- The record `_extract_sensor_data htmlBothAbsent` emits. -/
def recBothAbsent : SensorRecord where
  device_id := "1"
  name := .str "Unknown"
  location := .str "未設定"
  temperature := none
  humidity := none
  status := .str "unknown"
  raw_label := "abc℃"

/-- HTML with well-formed JSON whose device list holds the integer `0`. -/
def htmlIntZero : String :=
  "init(\x7b\"regDevList\":\x7b\"list\":[0]\x7d\x7d);</script>"

/-- HTML with well-formed JSON whose device list holds the integer `5`. -/
def htmlIntFive : String :=
  "init(\x7b\"regDevList\":\x7b\"list\":[5]\x7d\x7d);</script>"

/-- HTML whose two device entries carry the same `nodeId`. -/
def htmlDupIds : String :=
  "init(\x7b\"regDevList\":\x7b\"list\":[\x7b\"nodeId\":\"7\",\"state\":\x7b\"label\":\"a℃\"\x7d\x7d,\x7b\"nodeId\":\"7\",\"state\":\x7b\"label\":\"b℃\"\x7d\x7d]\x7d\x7d);</script>"

/-- HTML whose two device entries carry distinct `nodeId`s. -/
def htmlDistinctIds : String :=
  "init(\x7b\"regDevList\":\x7b\"list\":[\x7b\"nodeId\":\"1\",\"state\":\x7b\"label\":\"a℃\"\x7d\x7d,\x7b\"nodeId\":\"2\",\"state\":\x7b\"label\":\"b℃\"\x7d\x7d]\x7d\x7d);</script>"

/-- HTML with one entry passing the label filter and one entry without a
`state`. -/
def htmlMixedEntries : String :=
  "init(\x7b\"regDevList\":\x7b\"list\":[\x7b\"nodeId\":\"3\",\"state\":\x7b\"label\":\"x℃\"\x7d\x7d,\x7b\"nodeId\":\"4\"\x7d]\x7d\x7d);</script>"

/-- HTML with a single fully-populated device entry. -/
def htmlFullRecord : String :=
  "init(\x7b\"regDevList\":\x7b\"list\":[\x7b\"nodeId\":\"1\",\"deviceName\":\"Outdoor\",\"location\":\"Garden\",\"state\":\x7b\"label\":\"Garden ℃\",\"connection\":\"online\"\x7d\x7d]\x7d\x7d);</script>"

/-- HTML without any `init(...)` call. -/
def htmlNoInit : String :=
  "no call here"

/-- HTML whose `init(...)` payload is not valid JSON. -/
def htmlBadJson : String :=
  "init(\x7boops\x7d);</script>"

/-- HTML with one device entry whose label is `w℃`. -/
def htmlOneRecord : String :=
  "init(\x7b\"regDevList\":\x7b\"list\":[\x7b\"nodeId\":\"9\",\"state\":\x7b\"label\":\"w℃\"\x7d\x7d]\x7d\x7d);</script>"

/-- The spec's example label exactly as the spec writes it: the percent sign
is the ASCII character `%` (U+0025). -/
def specLabelAscii : String :=
  "Outdoor 2.6℃ 63%_S/N:1001812"

/-- The spec's example label with the full-width percent sign `％` (U+FF05)
that the source regex `(\d+)％` requires. -/
def specLabelFull : String :=
  "Outdoor 2.6℃ 63％_S/N:1001812"

/-- The spec's negative-temperature example label. -/
def labelIndoor : String :=
  "Indoor -1℃"

/-- The record `_extract_sensor_data htmlOneRecord` emits. -/
def recOneRecord : SensorRecord where
  device_id := "9"
  name := .str "Unknown"
  location := .str "未設定"
  temperature := none
  humidity := none
  status := .str "unknown"
  raw_label := "w℃"

/-- The parsed device list of `htmlMixedEntries`. -/
def dsMixed : List Json :=
  [.obj [("nodeId", .str "3"), ("state", .obj [("label", .str "x℃")])],
   .obj [("nodeId", .str "4")]]

/-- The parsed device entry of `htmlFullRecord`. -/
def fullKvs : List (String × Json) :=
  [("nodeId", .str "1"), ("deviceName", .str "Outdoor"), ("location", .str "Garden"),
   ("state", .obj [("label", .str "Garden ℃"), ("connection", .str "online")])]

/-- The record `_extract_sensor_data htmlFullRecord` emits. -/
def recFull : SensorRecord where
  device_id := "1"
  name := .str "Outdoor"
  location := .str "Garden"
  temperature := none
  humidity := none
  status := .str "online"
  raw_label := "Garden ℃"

/-- The parsed device list of `htmlDistinctIds`. -/
def dsDistinct : List Json :=
  [.obj [("nodeId", .str "1"), ("state", .obj [("label", .str "a℃")])],
   .obj [("nodeId", .str "2"), ("state", .obj [("label", .str "b℃")])]]

/-- The records `_extract_sensor_data htmlDistinctIds` emits. -/
def recDistinctA : SensorRecord where
  device_id := "1"
  name := .str "Unknown"
  location := .str "未設定"
  temperature := none
  humidity := none
  status := .str "unknown"
  raw_label := "a℃"

def recDistinctB : SensorRecord where
  device_id := "2"
  name := .str "Unknown"
  location := .str "未設定"
  temperature := none
  humidity := none
  status := .str "unknown"
  raw_label := "b℃"

/-- `digitRun` splits its input: the run concatenated with the rest is the
input. -/
theorem digitRun_append (l : List Char) : (digitRun l).1 ++ (digitRun l).2 = l := by
  induction l with
  | nil => rfl
  | cons c t ih =>
    by_cases hc : isDigit c = true
    · simp only [digitRun, hc, if_pos]
      cases h : digitRun t with
      | mk d r =>
        rw [h] at ih
        simpa using ih
    · simp only [digitRun, Bool.not_eq_true] at hc ⊢
      rw [hc]
      simp

/-- Every character of the run is a digit. -/
theorem digitRun_digits (l : List Char) : ∀ c ∈ (digitRun l).1, isDigit c = true := by
  induction l with
  | nil => intro c hc; simp [digitRun] at hc
  | cons c t ih =>
    by_cases hc : isDigit c = true
    · simp only [digitRun, hc, if_pos]
      cases h : digitRun t with
      | mk d r =>
        rw [h] at ih
        intro x hx
        simp only at hx
        rcases List.mem_cons.mp hx with h1 | h1
        · exact h1 ▸ hc
        · exact ih x h1
    · simp only [Bool.not_eq_true] at hc
      intro x hx
      simp [digitRun, hc] at hx

/-- On a pure digit list the run is everything. -/
theorem digitRun_all (d : List Char) (hd : ∀ c ∈ d, isDigit c = true) :
    digitRun d = (d, []) := by
  induction d with
  | nil => rfl
  | cons c t ih =>
    have hc : isDigit c = true := hd c (List.mem_cons_self c t)
    simp only [digitRun, hc, if_pos]
    rw [ih (fun x hx => hd x (List.mem_cons_of_mem c hx))]

/-- A digit list followed by a non-digit splits exactly there. -/
theorem digitRun_all_append (d : List Char) (c : Char) (r : List Char)
    (hd : ∀ x ∈ d, isDigit x = true) (hc : isDigit c = false) :
    digitRun (d ++ c :: r) = (d, c :: r) := by
  induction d with
  | nil => simp [digitRun, hc]
  | cons x t ih =>
    have hx : isDigit x = true := hd x (List.mem_cons_self x t)
    have ih2 := ih (fun y hy => hd y (List.mem_cons_of_mem x hy))
    simp [List.cons_append, digitRun, hx, ih2]

/-- `searchFirst` returns the anchored match at the first position where the
anchored matcher succeeds. -/
theorem searchFirst_sound (m : List Char → Option (List Char)) (l g : List Char)
    (h : searchFirst m l = some g) :
    ∃ i, m (l.drop i) = some g ∧ ∀ j, j < i → m (l.drop j) = none := by
  induction l with
  | nil =>
    refine ⟨0, h, ?_⟩
    intro j hj
    omega
  | cons c t ih =>
    cases hm : m (c :: t) with
    | some g2 =>
      rw [searchFirst, hm] at h
      refine ⟨0, ?_, ?_⟩
      · simpa [hm] using h
      · intro j hj
        omega
    | none =>
      rw [searchFirst, hm] at h
      obtain ⟨i, h1, h2⟩ := ih h
      refine ⟨i + 1, by simpa using h1, ?_⟩
      intro j hj
      cases j with
      | zero => exact hm
      | succ j2 =>
        have : j2 < i := by omega
        simpa using h2 j2 this


/-- Unfolding equations for the cons cases (no literal patterns remain, so
these hold by definitional reduction). -/
theorem matchTempAt_cons (c : Char) (t : List Char) :
    matchTempAt (c :: t) = if c = '-' then matchTempTail ['-'] t else matchTempTail [] (c :: t) :=
  rfl

theorem tempGroupShape_cons (c : Char) (t : List Char) :
    tempGroupShape (c :: t) = if c = '-' then tempShapeTail t else tempShapeTail (c :: t) :=
  rfl

/-- What a successful anchored temperature match means: the input starts
with the matched digits (and optional fraction) followed directly by the
`℃` marker, and the group is the sign prefix plus that numeric text. -/
theorem matchTempTail_sound (sgn s g : List Char) (h : matchTempTail sgn s = some g) :
    ∃ d rest, (∀ c ∈ d, isDigit c = true) ∧ d ≠ [] ∧
      ((g = sgn ++ d ∧ s = d ++ '℃' :: rest) ∨
       (∃ fd, (∀ c ∈ fd, isDigit c = true) ∧ fd ≠ [] ∧
         g = sgn ++ d ++ '.' :: fd ∧ s = d ++ '.' :: fd ++ '℃' :: rest)) := by
  rcases hdr : digitRun s with ⟨d, r⟩
  have hs : d ++ r = s := by
    have h2 := digitRun_append s
    rw [hdr] at h2
    simpa using h2
  have hd : ∀ c ∈ d, isDigit c = true := by
    have h2 := digitRun_digits s
    rw [hdr] at h2
    simpa using h2
  rw [matchTempTail, hdr] at h
  dsimp only at h
  by_cases hde : d.isEmpty
  · simp [hde] at h
  · simp only [hde, Bool.false_eq_true, if_false] at h
    have dne : d ≠ [] := by
      cases d with
      | nil => simp at hde
      | cons x d2 => simp
    cases r with
    | nil => simp at h
    | cons c f =>
      dsimp only at h
      by_cases hc : c = '.'
      · subst hc
        rw [if_pos rfl] at h
        rcases hfr : digitRun f with ⟨fd, fr⟩
        have hfs : fd ++ fr = f := by
          have h2 := digitRun_append f
          rw [hfr] at h2
          simpa using h2
        have hfd : ∀ c ∈ fd, isDigit c = true := by
          have h2 := digitRun_digits f
          rw [hfr] at h2
          simpa using h2
        rw [hfr] at h
        dsimp only at h
        by_cases hfde : fd.isEmpty
        · simp [hfde] at h
        · simp only [hfde, Bool.false_eq_true, if_false] at h
          have fdne : fd ≠ [] := by
            cases fd with
            | nil => simp at hfde
            | cons x fd2 => simp
          cases fr with
          | nil => simp at h
          | cons c2 rest2 =>
            dsimp only at h
            by_cases hc2 : c2 = '℃'
            · subst hc2
              rw [if_pos rfl] at h
              have hg := (Option.some.inj h).symm
              refine ⟨d, rest2, hd, dne, Or.inr ⟨fd, hfd, fdne, hg, ?_⟩⟩
              rw [← hs, ← hfs]
              simp
            · rw [if_neg hc2] at h
              exact absurd h (by simp)
      · by_cases hc2 : c = '℃'
        · subst hc2
          rw [if_neg hc, if_pos rfl] at h
          have hg := (Option.some.inj h).symm
          exact ⟨d, f, hd, dne, Or.inl ⟨hg, hs.symm⟩⟩
        · rw [if_neg hc, if_neg hc2] at h
          exact absurd h (by simp)

/-- A digit is not the minus sign. -/
theorem isDigit_ne_dash (c : Char) (h : isDigit c = true) : c ≠ '-' := by
  intro he
  rw [he] at h
  exact absurd h (by decide)

/-- The shape predicate accepts a pure digit run. -/
theorem tempShapeTail_nofrac (d : List Char) (hd : ∀ c ∈ d, isDigit c = true)
    (dne : d ≠ []) : tempShapeTail d = true := by
  rw [tempShapeTail, digitRun_all d hd]
  cases d with
  | nil => exact absurd rfl dne
  | cons x d2 => simp

/-- The shape predicate accepts digits, a dot and more digits. -/
theorem tempShapeTail_frac (d fd : List Char) (hd : ∀ c ∈ d, isDigit c = true)
    (hfd : ∀ c ∈ fd, isDigit c = true) (dne : d ≠ []) (fdne : fd ≠ []) :
    tempShapeTail (d ++ '.' :: fd) = true := by
  rw [tempShapeTail, digitRun_all_append d '.' fd hd (by decide)]
  dsimp only
  rw [if_pos rfl, digitRun_all fd hfd]
  cases d with
  | nil => exact absurd rfl dne
  | cons x d2 =>
    cases fd with
    | nil => exact absurd rfl fdne
    | cons y fd2 => simp

/-- A successful anchored temperature match has the amended numeric shape
and sits immediately before a `℃`. -/
theorem matchTempAt_sound (l g : List Char) (h : matchTempAt l = some g) :
    tempGroupShape g = true ∧ ∃ rest, l = g ++ '℃' :: rest := by
  cases l with
  | nil =>
    rw [show matchTempAt [] = none from rfl] at h
    exact absurd h (by simp)
  | cons c t =>
    by_cases hc : c = '-'
    · subst hc
      rw [matchTempAt_cons, if_pos rfl] at h
      obtain ⟨d, rest, hd, dne, hcase⟩ := matchTempTail_sound ['-'] t g h
      rcases hcase with ⟨hg, ht⟩ | ⟨fd, hfd, fdne, hg, ht⟩
      · subst hg
        refine ⟨?_, rest, ?_⟩
        · rw [List.singleton_append, tempGroupShape_cons, if_pos rfl]
          exact tempShapeTail_nofrac d hd dne
        · rw [ht, List.singleton_append]
          simp
      · subst hg
        refine ⟨?_, rest, ?_⟩
        · rw [List.singleton_append, List.cons_append, tempGroupShape_cons, if_pos rfl]
          exact tempShapeTail_frac d fd hd hfd dne fdne
        · rw [ht, List.singleton_append]
          simp
    · rw [matchTempAt_cons, if_neg hc] at h
      obtain ⟨d, rest, hd, dne, hcase⟩ := matchTempTail_sound [] (c :: t) g h
      rcases hcase with ⟨hg, ht⟩ | ⟨fd, hfd, fdne, hg, ht⟩
      · rw [List.nil_append] at hg
        subst hg
        refine ⟨?_, rest, ht⟩
        cases g with
        | nil => exact absurd rfl dne
        | cons x d2 =>
          rw [tempGroupShape_cons, if_neg (isDigit_ne_dash x (hd x (List.mem_cons_self x d2)))]
          exact tempShapeTail_nofrac (x :: d2) hd dne
      · rw [List.nil_append] at hg
        subst hg
        refine ⟨?_, rest, ht⟩
        cases d with
        | nil => exact absurd rfl dne
        | cons x d2 =>
          have hx : isDigit x = true := hd x (List.mem_cons_self x d2)
          rw [show x :: d2 ++ '.' :: fd = x :: (d2 ++ '.' :: fd) from rfl]
          rw [tempGroupShape_cons, if_neg (isDigit_ne_dash x hx)]
          exact tempShapeTail_frac (x :: d2) fd hd hfd dne fdne

/-- An if-expression whose branches are an error and `ok none` never equals
`ok (some r)`. -/
theorem if_error_none_ne_some {C : Prop} [Decidable C] (e : PyErr) (r : SensorRecord) :
    (if C then (Except.error e : Except PyErr (Option SensorRecord)) else Except.ok none) ≠
      Except.ok (some r) := by
  split <;> simp

/-- A record is emitted for a device exactly by the final branch of the
loop body: the device is a dict, its `state` a nonempty dict, the label a
nonempty string containing `℃`, and the record is `mkRecord`. -/
theorem procDevice_some (d : Json) (r : SensorRecord)
    (h : procDevice d = Except.ok (some r)) :
    ∃ kvs skvs ls, d = .obj kvs ∧
      dictGet kvs "state" = some (.obj skvs) ∧
      dictGet skvs "label" = some (.str ls) ∧
      ls.data.contains '℃' = true ∧ r = mkRecord kvs skvs ls := by
  cases d with
  | null => simp [procDevice] at h
  | bool b => simp [procDevice] at h
  | num m e i => simp [procDevice] at h
  | str s => simp [procDevice] at h
  | arr xs => simp [procDevice] at h
  | obj kvs =>
    rcases hst : dictGet kvs "state" with _ | st
    · simp [procDevice, hst, truthy] at h
    · cases st with
      | null => simp [procDevice, hst, truthy] at h
      | bool b => cases b <;> simp [procDevice, hst, truthy] at h
      | num m e i =>
        by_cases hm : m = 0 <;> simp [procDevice, hst, truthy, hm] at h
      | str s =>
        by_cases hs : s.isEmpty <;> simp [procDevice, hst, truthy, hs] at h
      | arr xs =>
        cases xs with
        | nil => simp [procDevice, hst, truthy] at h
        | cons x t => simp [procDevice, hst, truthy] at h
      | obj skvs =>
        by_cases hse : skvs.isEmpty
        · simp [procDevice, hst, truthy, hse] at h
        · rcases hlb : dictGet skvs "label" with _ | lb
          · simp [procDevice, hst, truthy, hse, hlb] at h
          · cases lb with
            | null => simp [procDevice, hst, truthy, hse, hlb] at h
            | bool b => cases b <;> simp [procDevice, hst, truthy, hse, hlb] at h
            | num m e i =>
              by_cases hm : m = 0 <;> simp [procDevice, hst, truthy, hse, hlb, hm] at h
            | arr xs =>
              cases xs with
              | nil => simp [procDevice, hst, truthy, hse, hlb] at h
              | cons x t =>
                simp [procDevice, hst, truthy, hse, hlb] at h
                exact absurd h (if_error_none_ne_some _ _)
            | obj lkvs =>
              cases lkvs with
              | nil => simp [procDevice, hst, truthy, hse, hlb] at h
              | cons x t =>
                simp [procDevice, hst, truthy, hse, hlb] at h
                exact absurd h (if_error_none_ne_some _ _)
            | str ls =>
              by_cases hle : ls.isEmpty
              · simp [procDevice, hst, truthy, hse, hlb, hle] at h
              · by_cases hcon : ls.data.contains '℃' = true
                · have hmem : '℃' ∈ ls.data := by simpa using hcon
                  refine ⟨kvs, skvs, ls, rfl, hst, hlb, hcon, ?_⟩
                  simp [procDevice, hst, truthy, hse, hlb, hle, hmem] at h
                  exact h.symm
                · have hmem : '℃' ∉ ls.data := by simpa using hcon
                  simp [procDevice, hst, truthy, hse, hlb, hle, hmem] at h

/-- On a benign device entry the loop body never raises, and it emits a
record exactly when the Python filter condition holds. -/
theorem procDevice_benign (d : Json) (hb : benignDev d = true) :
    ∃ o, procDevice d = Except.ok o ∧ Option.isSome o = passesFilter d := by
  cases d with
  | null => simp [benignDev] at hb
  | bool b => simp [benignDev] at hb
  | num m e i => simp [benignDev] at hb
  | str s => simp [benignDev] at hb
  | arr xs => simp [benignDev] at hb
  | obj kvs =>
    rcases hst : dictGet kvs "state" with _ | st
    · exact ⟨none, by simp [procDevice, hst, truthy], by simp [passesFilter, hst]⟩
    · cases st with
      | null =>
        exact ⟨none, by simp [procDevice, hst, truthy], by simp [passesFilter, hst]⟩
      | bool b =>
        cases b with
        | false =>
          exact ⟨none, by simp [procDevice, hst, truthy], by simp [passesFilter, hst]⟩
        | true => simp [benignDev, hst, truthy] at hb
      | num m e i =>
        by_cases hm : m = 0
        · exact ⟨none, by simp [procDevice, hst, truthy, hm], by simp [passesFilter, hst]⟩
        · simp [benignDev, hst, truthy, hm] at hb
      | str s =>
        by_cases hs : s.isEmpty
        · exact ⟨none, by simp [procDevice, hst, truthy, hs], by simp [passesFilter, hst]⟩
        · simp [benignDev, hst, truthy, hs] at hb
      | arr xs =>
        cases xs with
        | nil => exact ⟨none, by simp [procDevice, hst, truthy], by simp [passesFilter, hst]⟩
        | cons x t => simp [benignDev, hst, truthy] at hb
      | obj skvs =>
        by_cases hse : skvs.isEmpty
        · exact ⟨none, by simp [procDevice, hst, truthy, hse],
            by simp [passesFilter, hst, hse]⟩
        · rcases hlb : dictGet skvs "label" with _ | lb
          · exact ⟨none, by simp [procDevice, hst, truthy, hse, hlb],
              by simp [passesFilter, hst, hse, hlb]⟩
          · cases lb with
            | null =>
              exact ⟨none, by simp [procDevice, hst, truthy, hse, hlb],
                by simp [passesFilter, hst, hse, hlb]⟩
            | bool b =>
              cases b with
              | false =>
                exact ⟨none, by simp [procDevice, hst, truthy, hse, hlb],
                  by simp [passesFilter, hst, hse, hlb]⟩
              | true => simp [benignDev, hst, truthy, hse, hlb] at hb
            | num m e i =>
              by_cases hm : m = 0
              · exact ⟨none, by simp [procDevice, hst, truthy, hse, hlb, hm],
                  by simp [passesFilter, hst, hse, hlb]⟩
              · simp [benignDev, hst, truthy, hse, hlb, hm] at hb
            | arr xs =>
              cases xs with
              | nil =>
                exact ⟨none, by simp [procDevice, hst, truthy, hse, hlb],
                  by simp [passesFilter, hst, hse, hlb]⟩
              | cons x t => simp [benignDev, hst, truthy, hse, hlb] at hb
            | obj lkvs =>
              cases lkvs with
              | nil =>
                exact ⟨none, by simp [procDevice, hst, truthy, hse, hlb],
                  by simp [passesFilter, hst, hse, hlb]⟩
              | cons x t => simp [benignDev, hst, truthy, hse, hlb] at hb
            | str ls =>
              by_cases hle : ls.isEmpty
              · exact ⟨none, by simp [procDevice, hst, truthy, hse, hlb, hle],
                  by simp [passesFilter, hst, hse, hlb, hle]⟩
              · by_cases hcon : ls.data.contains '℃' = true
                · have hmem : '℃' ∈ ls.data := by simpa using hcon
                  refine ⟨some (mkRecord kvs skvs ls), ?_, ?_⟩
                  · simp [procDevice, hst, truthy, hse, hlb, hle, hmem]
                  · simp [passesFilter, hst, hse, hlb, hle, hmem]
                · have hmem : '℃' ∉ ls.data := by simpa using hcon
                  refine ⟨none, ?_, ?_⟩
                  · simp [procDevice, hst, truthy, hse, hlb, hle, hmem]
                  · simp [passesFilter, hst, hse, hlb, hle, hmem]

/-- A normal return of the device loop is exactly the per-device
`filterMap`: records in iteration order, one per emitting device. -/
theorem extractFromList_ok (ds : List Json) (recs : List SensorRecord)
    (h : extractFromList ds = Except.ok recs) : recs = ds.filterMap recordOf := by
  induction ds generalizing recs with
  | nil =>
    simp only [extractFromList] at h
    simp [← Except.ok.inj h]
  | cons d t ih =>
    simp only [extractFromList] at h
    cases hp : procDevice d with
    | error e => rw [hp] at h; simp at h
    | ok o =>
      rw [hp] at h
      cases o with
      | none =>
        have hro : recordOf d = none := by simp [recordOf, hp]
        dsimp only at h
        rw [List.filterMap_cons, hro]
        exact ih recs h
      | some r =>
        have hro : recordOf d = some r := by simp [recordOf, hp]
        dsimp only at h
        cases ht : extractFromList t with
        | error e => rw [ht] at h; simp at h
        | ok rs =>
          rw [ht] at h
          dsimp only at h
          rw [List.filterMap_cons, hro, ← ih rs ht]
          exact (Except.ok.inj h).symm

/-- If no device raises, the loop returns normally with the `filterMap`. -/
theorem extractFromList_benign (ds : List Json)
    (hok : ∀ d ∈ ds, ∃ o, procDevice d = Except.ok o) :
    extractFromList ds = Except.ok (ds.filterMap recordOf) := by
  induction ds with
  | nil => rfl
  | cons d t ih =>
    obtain ⟨o, ho⟩ := hok d (List.mem_cons_self d t)
    have ih2 := ih (fun x hx => hok x (List.mem_cons_of_mem d hx))
    cases o with
    | none =>
      have hro : recordOf d = none := by simp [recordOf, ho]
      simp [extractFromList, ho, ih2, List.filterMap_cons, hro]
    | some r =>
      have hro : recordOf d = some r := by simp [recordOf, ho]
      simp [extractFromList, ho, ih2, List.filterMap_cons, hro]

/-- When emission agrees pointwise with the filter condition, the number of
records equals the number of entries passing the filter. -/
theorem filterMap_length_eq_filter (ds : List Json)
    (h : ∀ d ∈ ds, (recordOf d).isSome = passesFilter d) :
    (ds.filterMap recordOf).length = (ds.filter passesFilter).length := by
  induction ds with
  | nil => rfl
  | cons d t ih =>
    have hd := h d (List.mem_cons_self d t)
    have ih2 := ih (fun x hx => h x (List.mem_cons_of_mem d hx))
    cases hro : recordOf d with
    | none =>
      have hpf : passesFilter d = false := by rw [← hd, hro]; rfl
      simp [List.filterMap_cons, hro, List.filter_cons, hpf, ih2]
    | some r =>
      have hpf : passesFilter d = true := by rw [← hd, hro]; rfl
      simp [List.filterMap_cons, hro, List.filter_cons, hpf, ih2]

/-- An emitted record comes from a normally-returning loop body. -/
theorem recordOf_some (d : Json) (r : SensorRecord) (h : recordOf d = some r) :
    procDevice d = Except.ok (some r) := by
  unfold recordOf at h
  cases hp : procDevice d with
  | error e => rw [hp] at h; simp at h
  | ok o =>
    rw [hp] at h
    dsimp only at h
    rw [h]

/-- `float("2.6")` is exactly 13/5. -/
theorem parseDec_two_six : parseDec ['2', '.', '6'] = 2.6 := by
  have h : parseDec ['2', '.', '6'] =
      (1 : Rat) * ((digitsToNat ['2'] : Rat) + (digitsToNat ['6'] : Rat) / ((10 : Rat) ^ (1 : Nat))) := rfl
  rw [h, show digitsToNat ['2'] = 2 from rfl, show digitsToNat ['6'] = 6 from rfl]
  norm_num

/-- `float("-1")` is exactly -1. -/
theorem parseDec_neg_one : parseDec ['-', '1'] = -1 := by
  have h : parseDec ['-', '1'] = (-1 : Rat) * (digitsToNat ['1'] : Rat) := rfl
  rw [h, show digitsToNat ['1'] = 1 from rfl]
  norm_num

/-- C1 counterexample: on `htmlBothAbsent` the extractor emits a record
whose temperature and humidity are both absent, so the claimed invariant
(`at least one of temperature or humidity present in every emitted
record`) fails on this input. -/
theorem C1_counterexample :
    extract htmlBothAbsent = Except.ok [recBothAbsent] ∧
    recBothAbsent.temperature = none ∧ recBothAbsent.humidity = none :=
  ⟨rfl, rfl, rfl⟩

/-- C1 (amended): the only filter `_extract_sensor_data` applies is the
`'℃' in label` test, so what holds of every emitted record is that its
`raw_label` contains the `℃` marker; a record with both `temperature` and
`humidity` absent is emitted whenever that label decodes neither value. -/
theorem C1_amended (html : String) (recs : List SensorRecord)
    (h : extract html = Except.ok recs) :
    ∀ r ∈ recs, r.raw_label.data.contains '℃' = true := by
  intro r hr
  cases hd : devListStep html with
  | error e =>
    simp only [extract, hd] at h
    exact absurd h (by simp)
  | ok o =>
    cases o with
    | none =>
      simp only [extract, hd] at h
      have : recs = [] := (Except.ok.inj h).symm
      rw [this] at hr
      simp at hr
    | some ds =>
      have he : extractFromList ds = Except.ok recs := by
        simpa only [extract, hd] using h
      have heq := extractFromList_ok ds recs he
      subst heq
      obtain ⟨d, hdmem, hro⟩ := List.mem_filterMap.mp hr
      have hp := recordOf_some d r hro
      obtain ⟨kvs, skvs, ls, heq2, hst, hlb, hcon, hr2⟩ := procDevice_some d r hp
      subst hr2
      simpa [mkRecord] using hcon

/-- C1 witness: the amended theorem applied to a concrete page. -/
theorem C1_witness : recOneRecord.raw_label.data.contains '℃' = true :=
  C1_amended htmlOneRecord [recOneRecord] rfl recOneRecord (List.mem_singleton.mpr rfl)

/-- C2 counterexample: on well-formed JSON whose `regDevList.list` holds
the integer `0`, `_extract_sensor_data` raises AttributeError
(`0 .get('state')`) instead of returning a list, so `extract` is not
total on all strings. -/
theorem C2_counterexample :
    extract htmlIntZero = Except.error PyErr.attributeError :=
  rfl

/-- C2 (amended): on the empty string, on HTML without an `init(...)` call
and on HTML whose `init(...)` payload is malformed JSON, `extract` returns
the empty list without raising; the original universal never-raises claim
fails only on well-formed JSON of unexpected shape. -/
theorem C2_amended :
    extract "" = Except.ok [] ∧
    (∀ html, findInit html.data = none → extract html = Except.ok []) ∧
    (∀ html g, findInit html.data = some g → jsonParse g = none →
      extract html = Except.ok []) := by
  refine ⟨rfl, ?_, ?_⟩
  · intro html h
    simp [extract, devListStep, h]
  · intro html g h1 h2
    simp [extract, devListStep, h1, h2]

/-- C2 witness: the amended theorem applied to a page without `init(...)`
and to a page with a malformed payload. -/
theorem C2_witness :
    extract htmlNoInit = Except.ok [] ∧ extract htmlBadJson = Except.ok [] :=
  ⟨C2_amended.2.1 htmlNoInit rfl,
   C2_amended.2.2 htmlBadJson ("\x7boops\x7d".data) rfl rfl⟩

/-- C3 counterexample: on the spec's label exactly as written (ASCII `%`),
the humidity regex `(\d+)％` does not match, so humidity is absent rather
than 63 (temperature still decodes to 2.6). -/
theorem C3_counterexample :
    labelTemp specLabelAscii = some 2.6 ∧
    labelHum specLabelAscii = none ∧
    (none : Option Int) ≠ some 63 := by
  refine ⟨?_, rfl, by simp⟩
  have hs : searchFirst matchTempAt specLabelAscii.data = some ['2', '.', '6'] := rfl
  rw [labelTemp, hs, Option.map_some', parseDec_two_six]

/-- C3 (amended): with the full-width `％` the spec's parenthetical calls
for, the label decodes to temperature 2.6 and humidity 63; with the ASCII
`%` as the label is literally written, temperature is 2.6 and humidity is
absent. -/
theorem C3_amended :
    labelTemp specLabelFull = some 2.6 ∧
    labelHum specLabelFull = some 63 ∧
    labelTemp specLabelAscii = some 2.6 ∧
    labelHum specLabelAscii = none := by
  refine ⟨?_, rfl, ?_, rfl⟩
  · have hs : searchFirst matchTempAt specLabelFull.data = some ['2', '.', '6'] := rfl
    rw [labelTemp, hs, Option.map_some', parseDec_two_six]
  · have hs : searchFirst matchTempAt specLabelAscii.data = some ['2', '.', '6'] := rfl
    rw [labelTemp, hs, Option.map_some', parseDec_two_six]

/-- C6: on the label `Indoor -1℃` the decode step yields temperature -1
and no humidity. -/
theorem C6_theorem :
    labelTemp labelIndoor = some (-1) ∧ labelHum labelIndoor = none := by
  refine ⟨?_, rfl⟩
  have hs : searchFirst matchTempAt labelIndoor.data = some ['-', '1'] := rfl
  rw [labelTemp, hs, Option.map_some', parseDec_neg_one]

/-- C4 counterexample: HTML with a well-formed `init(...)` payload and a
`regDevList.list` array reaches the loop, yet `extract` raises
(AttributeError on `5 .get('state')`) instead of returning a record list,
so the claim fails as universally stated. -/
theorem C4_counterexample :
    devListStep htmlIntFive = Except.ok (some [Json.num 5 0 true]) ∧
    extract htmlIntFive = Except.error PyErr.attributeError :=
  ⟨rfl, rfl⟩

/-- C4 (amended): provided every device entry is benign (a dict whose
truthy `state` is a dict whose truthy `label` is a string), `extract`
returns exactly one record per entry passing the label filter and none for
the others. -/
theorem C4_amended (html : String) (ds : List Json)
    (h1 : devListStep html = Except.ok (some ds))
    (hb : ∀ d ∈ ds, benignDev d = true) :
    ∃ recs, extract html = Except.ok recs ∧
      recs = ds.filterMap recordOf ∧
      recs.length = (ds.filter passesFilter).length ∧
      ∀ d ∈ ds, (recordOf d).isSome = passesFilter d := by
  have hok : ∀ d ∈ ds, ∃ o, procDevice d = Except.ok o := by
    intro d hd
    obtain ⟨o, ho, _⟩ := procDevice_benign d (hb d hd)
    exact ⟨o, ho⟩
  have hsome : ∀ d ∈ ds, (recordOf d).isSome = passesFilter d := by
    intro d hd
    obtain ⟨o, ho, hiso⟩ := procDevice_benign d (hb d hd)
    have hro : recordOf d = o := by simp [recordOf, ho]
    rw [hro]
    exact hiso
  have he : extractFromList ds = Except.ok (ds.filterMap recordOf) :=
    extractFromList_benign ds hok
  refine ⟨ds.filterMap recordOf, ?_, rfl, ?_, hsome⟩
  · simpa only [extract, h1] using he
  · exact filterMap_length_eq_filter ds hsome

/-- C4 witness: the amended theorem applied to a page with one passing and
one stateless entry. -/
theorem C4_witness :
    ∃ recs, extract htmlMixedEntries = Except.ok recs ∧
      recs = dsMixed.filterMap recordOf ∧
      recs.length = (dsMixed.filter passesFilter).length ∧
      ∀ d ∈ dsMixed, (recordOf d).isSome = passesFilter d :=
  C4_amended htmlMixedEntries dsMixed rfl (by decide)

/-- C5 counterexample: two device entries sharing `nodeId` `7` yield two
records with the same `device_id`, so device ids in one extraction result
are not always pairwise distinct. -/
theorem C5_counterexample :
    (extract htmlDupIds).map (List.map SensorRecord.device_id) = Except.ok ["7", "7"] ∧
    ¬ (["7", "7"] : List String).Nodup :=
  ⟨rfl, by decide⟩

/-- C5 (amended): the extractor performs no deduplication: the record
`device_id`s are exactly the stringified `nodeId`s of the emitting entries
in order, so they are pairwise distinct precisely when those are. -/
theorem C5_amended (html : String) (ds : List Json) (recs : List SensorRecord)
    (h1 : devListStep html = Except.ok (some ds))
    (h2 : extract html = Except.ok recs) :
    recs.map SensorRecord.device_id = (ds.filterMap recordOf).map SensorRecord.device_id ∧
    (((ds.filterMap recordOf).map SensorRecord.device_id).Nodup →
      (recs.map SensorRecord.device_id).Nodup) := by
  have he : extractFromList ds = Except.ok recs := by
    simpa only [extract, h1] using h2
  have heq := extractFromList_ok ds recs he
  rw [heq]
  exact ⟨rfl, id⟩

/-- C5 witness: on a page with distinct `nodeId`s the device ids are
distinct. -/
theorem C5_witness :
    (([recDistinctA, recDistinctB] : List SensorRecord).map SensorRecord.device_id).Nodup :=
  (C5_amended htmlDistinctIds dsDistinct [recDistinctA, recDistinctB] rfl rfl).2 (by decide)

/-- C7 counterexample: on the label `1.25℃` the decode step matches the
text `1.25`, which has two fraction digits, so the claimed shape (at most
one fraction digit) fails. -/
theorem C7_counterexample :
    searchFirst matchTempAt ("1.25℃".data) = some ['1', '.', '2', '5'] ∧
    claimTempShape ['1', '.', '2', '5'] = false :=
  ⟨rfl, rfl⟩

/-- C7 (amended): the decoded temperature text is a signed decimal number
immediately preceding the `℃` marker whose fraction part, when present,
has one or more digits (not at most one); and the match used is the
leftmost one. -/
theorem C7_amended (l g : List Char) (h : searchFirst matchTempAt l = some g) :
    tempGroupShape g = true ∧
    ∃ i rest, l.drop i = g ++ '℃' :: rest ∧ matchTempAt (l.drop i) = some g ∧
      ∀ j, j < i → matchTempAt (l.drop j) = none := by
  obtain ⟨i, h1, h2⟩ := searchFirst_sound matchTempAt l g h
  obtain ⟨hshape, rest, hrest⟩ := matchTempAt_sound (l.drop i) g h1
  exact ⟨hshape, i, rest, hrest, h1, h2⟩

/-- C7 witness: the amended theorem applied to a concrete label. -/
theorem C7_witness :
    tempGroupShape ['2', '.', '6'] = true ∧
    ∃ i rest, (("x2.6℃" : String).data).drop i = ['2', '.', '6'] ++ '℃' :: rest ∧
      matchTempAt ((("x2.6℃" : String).data).drop i) = some ['2', '.', '6'] ∧
      ∀ j, j < i → matchTempAt ((("x2.6℃" : String).data).drop j) = none :=
  C7_amended (("x2.6℃" : String).data) ['2', '.', '6'] rfl

/-- C8: once extraction has produced its record list, that list is what
`async_get_sensor_data` returns for every outcome of the mode-reset
home-page GET — `_async_exit_setting_mode` catches every outcome
(`except httpx.TimeoutException` then `except Exception`), and its result
is discarded. -/
theorem C8_theorem (s : Nat) (body : String) (devs : List SensorRecord)
    (homeResp : NetOutcome) (h2xx : isSuccessStatus s = true)
    (hex : extract body = Except.ok devs) :
    asyncGetSensorData (NetOutcome.ok s body) homeResp = Except.ok devs ∧
    ∀ homeResp2, asyncGetSensorData (NetOutcome.ok s body) homeResp =
      asyncGetSensorData (NetOutcome.ok s body) homeResp2 := by
  constructor
  · cases hlog : asyncExitSettingMode homeResp <;>
      simp [asyncGetSensorData, h2xx, hex, hlog]
  · intro homeResp2
    cases hlog : asyncExitSettingMode homeResp <;>
      cases hlog2 : asyncExitSettingMode homeResp2 <;>
        simp [asyncGetSensorData, h2xx, hex, hlog, hlog2]

/-- C8 witness: the theorem applied with a timed-out mode reset. -/
theorem C8_witness :
    asyncGetSensorData (NetOutcome.ok 200 "") NetOutcome.timeout = Except.ok [] ∧
    ∀ homeResp2, asyncGetSensorData (NetOutcome.ok 200 "") NetOutcome.timeout =
      asyncGetSensorData (NetOutcome.ok 200 "") homeResp2 :=
  C8_theorem 200 "" [] NetOutcome.timeout rfl rfl

/-- C9: `_extract_sensor_data` reads nothing from `self` (beyond the
module-level logger), so its result is the same function of the `html`
argument in every client state: it is pure and deterministic. -/
theorem C9_theorem (s1 s2 : ClientState) (html : String) :
    extractSensorData s1 html = extract html ∧
    extractSensorData s1 html = extractSensorData s2 html :=
  ⟨rfl, rfl⟩

/-- C10: the records come out in device-list order (the `filterMap` of the
loop body), and for each emitted record: `raw_label` is the entry's
`state.label` verbatim, a missing `nodeId` gives `device_id` `""`, a
missing `deviceName` gives name `Unknown`, a missing `location` gives
`未設定`, and a missing `state.connection` gives status `unknown`. -/
theorem C10_theorem (html : String) (ds : List Json) (recs : List SensorRecord)
    (h1 : devListStep html = Except.ok (some ds))
    (h2 : extract html = Except.ok recs) :
    recs = ds.filterMap recordOf ∧
    ∀ kvs r, recordOf (Json.obj kvs) = some r →
      (dictGet kvs "nodeId" = none → r.device_id = "") ∧
      (dictGet kvs "deviceName" = none → r.name = Json.str "Unknown") ∧
      (dictGet kvs "location" = none → r.location = Json.str "未設定") ∧
      ∀ skvs, dictGet kvs "state" = some (Json.obj skvs) →
        dictGet skvs "label" = some (Json.str r.raw_label) ∧
        (dictGet skvs "connection" = none → r.status = Json.str "unknown") := by
  constructor
  · have he : extractFromList ds = Except.ok recs := by
      simpa only [extract, h1] using h2
    exact extractFromList_ok ds recs he
  · intro kvs r hro
    have hp := recordOf_some (Json.obj kvs) r hro
    obtain ⟨kvs2, skvs, ls, heq2, hst, hlb, hcon, hr2⟩ :=
      procDevice_some (Json.obj kvs) r hp
    injection heq2 with hkv
    subst hkv
    subst hr2
    refine ⟨?_, ?_, ?_, ?_⟩
    · intro hn
      simp [mkRecord, hn, pyStr]
    · intro hn
      simp [mkRecord, hn]
    · intro hn
      simp [mkRecord, hn]
    · intro skvs2 hst2
      rw [hst] at hst2
      injection hst2 with hso
      injection hso with hskv
      subst hskv
      constructor
      · simpa [mkRecord] using hlb
      · intro hcn
        simp [mkRecord, hcn]

/-- C10 witness: the order part of the theorem applied to a fully-populated
page. -/
theorem C10_witness :
    ([recFull] : List SensorRecord) = [Json.obj fullKvs].filterMap recordOf :=
  (C10_theorem htmlFullRecord [Json.obj fullKvs] [recFull] rfl rfl).1
